import Mathlib

/-
  Verification of the metadata catalog layer of the scanner repository
  (src/scanner/engine/db.cpp).

  The C++ std::map fields are embedded as association lists whose entry
  order is the iteration order of the map.  In every state reachable from
  a fresh catalog the keys are inserted in strictly increasing order, so
  the list order coincides with the key order used by std::map iteration.
-/

set_option autoImplicit false

namespace Scanner

/-- First value stored under a key, scanning in iteration order
(the lookup of `std::map::find` / `std::map::at`). -/
def assocFind {κ α : Type} [DecidableEq κ] : List (κ × α) → κ → Option α
  | [], _ => none
  | p :: rest, k => if p.1 = k then some p.2 else assocFind rest k

/-- `std::map::operator[] = v`: overwrite the entry if the key is present,
otherwise add a fresh entry. -/
def assocSet {κ α : Type} [DecidableEq κ] : List (κ × α) → κ → α → List (κ × α)
  | [], k, v => [(k, v)]
  | p :: rest, k, v => if p.1 = k then (k, v) :: rest else p :: assocSet rest k v

/-- `std::map::insert`: keep the existing entry when the key is already
present, otherwise add the pair. -/
def assocInsert {κ α : Type} [DecidableEq κ] (m : List (κ × α)) (k : κ) (v : α) :
    List (κ × α) :=
  if (assocFind m k).isSome then m else m ++ [(k, v)]

/-- `std::map::erase` by key. -/
def assocErase {κ α : Type} [DecidableEq κ] : List (κ × α) → κ → List (κ × α)
  | [], _ => []
  | p :: rest, k => if p.1 = k then rest else p :: assocErase rest k

/-- `std::map::count(k) > 0`. -/
def assocContains {κ α : Type} [DecidableEq κ] (m : List (κ × α)) (k : κ) : Bool :=
  (assocFind m k).isSome

@[simp] theorem assocFind_nil {κ α : Type} [DecidableEq κ] (k : κ) :
    assocFind ([] : List (κ × α)) k = none := rfl

@[simp] theorem assocFind_cons {κ α : Type} [DecidableEq κ] (p : κ × α)
    (rest : List (κ × α)) (k : κ) :
    assocFind (p :: rest) k = if p.1 = k then some p.2 else assocFind rest k := rfl

theorem assocFind_eq_none_iff {κ α : Type} [DecidableEq κ]
    (m : List (κ × α)) (k : κ) :
    assocFind m k = none ↔ k ∉ m.map Prod.fst := by
  induction m with
  | nil => simp
  | cons p rest ih =>
    by_cases h : p.1 = k <;> simp [assocFind, h, ih, Ne.symm]

theorem assocFind_isSome_iff {κ α : Type} [DecidableEq κ]
    (m : List (κ × α)) (k : κ) :
    (assocFind m k).isSome ↔ k ∈ m.map Prod.fst := by
  induction m with
  | nil => simp
  | cons p rest ih =>
    by_cases h : p.1 = k <;> simp [assocFind, h, ih, Ne.symm]

theorem assocSet_of_not_mem {κ α : Type} [DecidableEq κ]
    (m : List (κ × α)) (k : κ) (v : α) (h : k ∉ m.map Prod.fst) :
    assocSet m k v = m ++ [(k, v)] := by
  induction m with
  | nil => rfl
  | cons p rest ih =>
    simp only [List.map_cons, List.mem_cons] at h
    push_neg at h
    simp [assocSet, Ne.symm h.1, ih h.2]

theorem assocErase_sublist {κ α : Type} [DecidableEq κ]
    (m : List (κ × α)) (k : κ) : (assocErase m k).Sublist m := by
  induction m with
  | nil => simp [assocErase]
  | cons p rest ih =>
    by_cases h : p.1 = k
    · simp [assocErase, h, List.sublist_cons_self]
    · simpa [assocErase, h] using List.Sublist.cons₂ p ih

theorem assocFind_assocSet_self {κ α : Type} [DecidableEq κ]
    (m : List (κ × α)) (k : κ) (v : α) :
    assocFind (assocSet m k v) k = some v := by
  induction m with
  | nil => simp [assocSet, assocFind]
  | cons p rest ih =>
    by_cases h : p.1 = k <;> simp [assocSet, h, assocFind, ih]

/-! ## The catalog: `DatabaseMetadata` (db.cpp lines 63-182) -/

/-- In-memory state of `DatabaseMetadata`: two monotonic id counters and
the id-to-name indices for tables and jobs. -/
structure DatabaseMetadata where
  next_table_id : Int
  table_names : List (Int × String)
  next_job_id : Int
  job_names : List (Int × String)
  deriving DecidableEq, Repr

/-- The default constructor: both counters start at 0, both indices empty. -/
def DatabaseMetadata.fresh : DatabaseMetadata :=
  { next_table_id := 0, table_names := [], next_job_id := 0, job_names := [] }

/-- `add_table`: returns `next_table_id_++` and inserts the (id, name) pair. -/
def DatabaseMetadata.add_table (s : DatabaseMetadata) (table : String) :
    Int × DatabaseMetadata :=
  (s.next_table_id,
   { s with
     next_table_id := s.next_table_id + 1,
     table_names := assocSet s.table_names s.next_table_id table })

/-- `remove_table`: asserts the id is present (else fatal, modelled as
`none`), then erases the index entry. -/
def DatabaseMetadata.remove_table (s : DatabaseMetadata) (table_id : Int) :
    Option DatabaseMetadata :=
  if assocContains s.table_names table_id then
    some { s with table_names := assocErase s.table_names table_id }
  else none

/-- `add_job`: symmetric to `add_table`. -/
def DatabaseMetadata.add_job (s : DatabaseMetadata) (job_name : String) :
    Int × DatabaseMetadata :=
  (s.next_job_id,
   { s with
     next_job_id := s.next_job_id + 1,
     job_names := assocSet s.job_names s.next_job_id job_name })

/-- `remove_job`: symmetric to `remove_table`. -/
def DatabaseMetadata.remove_job (s : DatabaseMetadata) (job_id : Int) :
    Option DatabaseMetadata :=
  if assocContains s.job_names job_id then
    some { s with job_names := assocErase s.job_names job_id }
  else none

/-- `has_table(name)`: linear scan of the values of the table index. -/
def DatabaseMetadata.has_table_name (s : DatabaseMetadata) (table : String) : Bool :=
  s.table_names.any (fun p => p.2 == table)

/-- `has_table(id)`: `table_names_.count(table_id) > 0`. -/
def DatabaseMetadata.has_table_id (s : DatabaseMetadata) (table_id : Int) : Bool :=
  assocContains s.table_names table_id

/-- `has_job(name)`. -/
def DatabaseMetadata.has_job_name (s : DatabaseMetadata) (job : String) : Bool :=
  s.job_names.any (fun p => p.2 == job)

/-- `has_job(id)`. -/
def DatabaseMetadata.has_job_id (s : DatabaseMetadata) (job_id : Int) : Bool :=
  assocContains s.job_names job_id

/-- `get_table_id(name)`: scan the index in key order for the first entry
with the given name; `id` stays -1 when none matches and the assert
`id != -1` then aborts (modelled as `none`). -/
def DatabaseMetadata.get_table_id (s : DatabaseMetadata) (table : String) :
    Option Int :=
  match s.table_names.find? (fun p => p.2 == table) with
  | some p => if p.1 = -1 then none else some p.1
  | none => none

/-- `get_table_name(id)`: `table_names_.at(table_id)`, which aborts on an
absent key (modelled as `none`). -/
def DatabaseMetadata.get_table_name (s : DatabaseMetadata) (table_id : Int) :
    Option String :=
  assocFind s.table_names table_id

/-- `get_job_id(name)`: symmetric to `get_table_id`. -/
def DatabaseMetadata.get_job_id (s : DatabaseMetadata) (job : String) :
    Option Int :=
  match s.job_names.find? (fun p => p.2 == job) with
  | some p => if p.1 = -1 then none else some p.1
  | none => none

/-- `get_job_name(id)`. -/
def DatabaseMetadata.get_job_name (s : DatabaseMetadata) (job_id : Int) :
    Option String :=
  assocFind s.job_names job_id

/-! ## Serialized form: `DatabaseDescriptor` and the round trip -/

/-- The serializable payload: counters plus exported (id, name) lists. -/
structure DatabaseDescriptor where
  next_table_id : Int
  next_job_id : Int
  tables : List (Int × String)
  jobs : List (Int × String)
  deriving DecidableEq, Repr

/-- `get_descriptor()`: stores both counters and rebuilds the exported
table and job lists from the live indices, in index iteration order. -/
def DatabaseMetadata.get_descriptor (s : DatabaseMetadata) : DatabaseDescriptor :=
  { next_table_id := s.next_table_id,
    next_job_id := s.next_job_id,
    tables := s.table_names,
    jobs := s.job_names }

/-- The descriptor constructor `DatabaseMetadata(const DatabaseDescriptor&)`:
copies both counters and inserts every exported pair into the fresh
indices with `std::map::insert`. -/
def DatabaseMetadata.ofDescriptor (d : DatabaseDescriptor) : DatabaseMetadata :=
  { next_table_id := d.next_table_id,
    next_job_id := d.next_job_id,
    table_names := d.tables.foldl (fun m p => assocInsert m p.1 p.2) [],
    job_names := d.jobs.foldl (fun m p => assocInsert m p.1 p.2) [] }

/-! ## Catalog operation traces -/

/-- One mutating catalog call. -/
inductive CatalogOp where
  | addTable : String → CatalogOp
  | removeTable : Int → CatalogOp
  | addJob : String → CatalogOp
  | removeJob : Int → CatalogOp
  deriving DecidableEq, Repr

/-- Apply one call; `none` when a remove hits its fatal assert. -/
def CatalogOp.apply (s : DatabaseMetadata) : CatalogOp → Option DatabaseMetadata
  | .addTable n => some (s.add_table n).2
  | .removeTable i => s.remove_table i
  | .addJob n => some (s.add_job n).2
  | .removeJob i => s.remove_job i

/-- Run a list of catalog calls in order; `none` as soon as one aborts. -/
def runOps (s : DatabaseMetadata) : List CatalogOp → Option DatabaseMetadata
  | [] => some s
  | op :: rest =>
    match op.apply s with
    | none => none
    | some s1 => runOps s1 rest

/-- Fold `add_table` over a list of names, collecting the returned ids. -/
def DatabaseMetadata.addTables (s : DatabaseMetadata) :
    List String → List Int × DatabaseMetadata
  | [] => ([], s)
  | n :: rest =>
    let r := s.add_table n
    let r1 := r.2.addTables rest
    (r.1 :: r1.1, r1.2)

/-- Well-formedness of one index against its counter: the counter is
nonnegative, every key was issued below the counter, and keys are
pairwise distinct. -/
def mapWF (m : List (Int × String)) (next : Int) : Prop :=
  0 ≤ next ∧ (∀ p ∈ m, 0 ≤ p.1 ∧ p.1 < next) ∧ (m.map Prod.fst).Nodup

instance (m : List (Int × String)) (next : Int) : Decidable (mapWF m next) := by
  unfold mapWF; infer_instance

/-- Catalog well-formedness, invariant of every reachable state. -/
def DatabaseMetadata.WF (s : DatabaseMetadata) : Prop :=
  mapWF s.table_names s.next_table_id ∧ mapWF s.job_names s.next_job_id

instance (s : DatabaseMetadata) : Decidable s.WF := by
  unfold DatabaseMetadata.WF; infer_instance

theorem fresh_WF : DatabaseMetadata.fresh.WF := by decide

theorem next_table_id_not_key (s : DatabaseMetadata)
    (hb : ∀ p ∈ s.table_names, 0 ≤ p.1 ∧ p.1 < s.next_table_id) :
    s.next_table_id ∉ s.table_names.map Prod.fst := by
  intro hm
  obtain ⟨p, hp, hpe⟩ := List.mem_map.mp hm
  have := hb p hp
  omega

theorem next_job_id_not_key (s : DatabaseMetadata)
    (hb : ∀ p ∈ s.job_names, 0 ≤ p.1 ∧ p.1 < s.next_job_id) :
    s.next_job_id ∉ s.job_names.map Prod.fst := by
  intro hm
  obtain ⟨p, hp, hpe⟩ := List.mem_map.mp hm
  have := hb p hp
  omega

theorem add_table_WF (s : DatabaseMetadata) (n : String) (h : s.WF) :
    ((s.add_table n).2).WF := by
  obtain ⟨⟨ht0, htb, htnd⟩, hj⟩ := h
  have hnm := next_table_id_not_key s htb
  refine ⟨⟨?_, ?_, ?_⟩, hj⟩
  · simp only [DatabaseMetadata.add_table]
    omega
  · intro p hp
    simp only [DatabaseMetadata.add_table] at hp ⊢
    rw [assocSet_of_not_mem _ _ _ hnm] at hp
    rcases List.mem_append.mp hp with h1 | h1
    · have := htb p h1
      omega
    · simp only [List.mem_singleton] at h1
      subst h1
      simp
      omega
  · simp only [DatabaseMetadata.add_table]
    rw [assocSet_of_not_mem _ _ _ hnm]
    simp [List.nodup_append, htnd, hnm]

theorem remove_table_WF (s : DatabaseMetadata) (i : Int) (s1 : DatabaseMetadata)
    (h : s.remove_table i = some s1) (hWF : s.WF) : s1.WF := by
  obtain ⟨⟨ht0, htb, htnd⟩, hj⟩ := hWF
  rw [DatabaseMetadata.remove_table] at h
  split at h
  · injection h with h
    subst h
    refine ⟨⟨ht0, ?_, ?_⟩, hj⟩
    · intro p hp
      exact htb p ((assocErase_sublist _ _).subset hp)
    · exact List.Nodup.sublist ((assocErase_sublist s.table_names i).map Prod.fst) htnd
  · cases h

theorem add_job_WF (s : DatabaseMetadata) (n : String) (h : s.WF) :
    ((s.add_job n).2).WF := by
  obtain ⟨ht, ⟨hj0, hjb, hjnd⟩⟩ := h
  have hnm := next_job_id_not_key s hjb
  refine ⟨ht, ?_, ?_, ?_⟩
  · simp only [DatabaseMetadata.add_job]
    omega
  · intro p hp
    simp only [DatabaseMetadata.add_job] at hp ⊢
    rw [assocSet_of_not_mem _ _ _ hnm] at hp
    rcases List.mem_append.mp hp with h1 | h1
    · have := hjb p h1
      omega
    · simp only [List.mem_singleton] at h1
      subst h1
      simp
      omega
  · simp only [DatabaseMetadata.add_job]
    rw [assocSet_of_not_mem _ _ _ hnm]
    simp [List.nodup_append, hjnd, hnm]

theorem remove_job_WF (s : DatabaseMetadata) (i : Int) (s1 : DatabaseMetadata)
    (h : s.remove_job i = some s1) (hWF : s.WF) : s1.WF := by
  obtain ⟨ht, ⟨hj0, hjb, hjnd⟩⟩ := hWF
  rw [DatabaseMetadata.remove_job] at h
  split at h
  · injection h with h
    subst h
    refine ⟨ht, hj0, ?_, ?_⟩
    · intro p hp
      exact hjb p ((assocErase_sublist _ _).subset hp)
    · exact List.Nodup.sublist ((assocErase_sublist s.job_names i).map Prod.fst) hjnd
  · cases h

theorem apply_WF (op : CatalogOp) (s s1 : DatabaseMetadata)
    (h : op.apply s = some s1) (hWF : s.WF) : s1.WF := by
  cases op with
  | addTable n =>
    simp only [CatalogOp.apply, Option.some.injEq] at h
    subst h
    exact add_table_WF s n hWF
  | removeTable i => exact remove_table_WF s i s1 h hWF
  | addJob n =>
    simp only [CatalogOp.apply, Option.some.injEq] at h
    subst h
    exact add_job_WF s n hWF
  | removeJob i => exact remove_job_WF s i s1 h hWF

theorem runOps_WF (ops : List CatalogOp) :
    ∀ s s1 : DatabaseMetadata, runOps s ops = some s1 → s.WF → s1.WF := by
  induction ops with
  | nil =>
    intro s s1 h hWF
    simp only [runOps, Option.some.injEq] at h
    subst h
    exact hWF
  | cons op rest ih =>
    intro s s1 h hWF
    simp only [runOps] at h
    cases hop : op.apply s with
    | none => rw [hop] at h; cases h
    | some s2 =>
      rw [hop] at h
      exact ih s2 s1 h (apply_WF op s s2 hop hWF)

theorem apply_next_mono (op : CatalogOp) (s s1 : DatabaseMetadata)
    (h : op.apply s = some s1) :
    s.next_table_id ≤ s1.next_table_id ∧ s.next_job_id ≤ s1.next_job_id := by
  cases op with
  | addTable n =>
    simp only [CatalogOp.apply, Option.some.injEq] at h
    subst h
    simp only [DatabaseMetadata.add_table]
    omega
  | removeTable i =>
    rw [CatalogOp.apply, DatabaseMetadata.remove_table] at h
    split at h
    · injection h with h
      subst h
      exact ⟨le_refl _, le_refl _⟩
    · cases h
  | addJob n =>
    simp only [CatalogOp.apply, Option.some.injEq] at h
    subst h
    simp only [DatabaseMetadata.add_job]
    omega
  | removeJob i =>
    rw [CatalogOp.apply, DatabaseMetadata.remove_job] at h
    split at h
    · injection h with h
      subst h
      exact ⟨le_refl _, le_refl _⟩
    · cases h

theorem runOps_next_mono (ops : List CatalogOp) :
    ∀ s s1 : DatabaseMetadata, runOps s ops = some s1 →
      s.next_table_id ≤ s1.next_table_id ∧ s.next_job_id ≤ s1.next_job_id := by
  induction ops with
  | nil =>
    intro s s1 h
    simp only [runOps, Option.some.injEq] at h
    subst h
    exact ⟨le_refl _, le_refl _⟩
  | cons op rest ih =>
    intro s s1 h
    simp only [runOps] at h
    cases hop : op.apply s with
    | none => rw [hop] at h; cases h
    | some s2 =>
      rw [hop] at h
      have h1 := apply_next_mono op s s2 hop
      have h2 := ih s2 s1 h
      exact ⟨le_trans h1.1 h2.1, le_trans h1.2 h2.2⟩

theorem addTables_fst (names : List String) :
    ∀ s : DatabaseMetadata,
      (s.addTables names).1
        = (List.range names.length).map (fun (k : Nat) => s.next_table_id + (k : Int)) := by
  induction names with
  | nil => intro s; simp [DatabaseMetadata.addTables]
  | cons n rest ih =>
    intro s
    simp only [DatabaseMetadata.addTables, ih, List.length_cons,
      List.range_succ_eq_map, List.map_cons, List.map_map]
    congr 1
    · simp [DatabaseMetadata.add_table]
    · apply List.map_congr_left
      intro a ha
      simp only [Function.comp_apply, DatabaseMetadata.add_table]
      push_cast
      ring

/-- C1: on a fresh catalog, n calls to add_table return exactly 0,…,n-1 in
call order; after any interleaving of add_table/remove_table calls a
removed table id is never returned by a later add_table, and add_job /
remove_job behave symmetrically; next_table_id and next_job_id never
decrease across any run of catalog operations. -/
theorem catalog_id_allocation_monotone :
    (∀ names : List String,
        (DatabaseMetadata.fresh.addTables names).1
          = (List.range names.length).map (fun (k : Nat) => (k : Int))) ∧
    (∀ pre mid : List CatalogOp, ∀ i : Int, ∀ name : String,
      ∀ s1 s2 s3 : DatabaseMetadata,
        runOps DatabaseMetadata.fresh pre = some s1 →
        s1.remove_table i = some s2 →
        runOps s2 mid = some s3 →
        (s3.add_table name).1 ≠ i) ∧
    (∀ pre mid : List CatalogOp, ∀ i : Int, ∀ name : String,
      ∀ s1 s2 s3 : DatabaseMetadata,
        runOps DatabaseMetadata.fresh pre = some s1 →
        s1.remove_job i = some s2 →
        runOps s2 mid = some s3 →
        (s3.add_job name).1 ≠ i) ∧
    (∀ ops : List CatalogOp, ∀ s s1 : DatabaseMetadata,
        runOps s ops = some s1 →
        s.next_table_id ≤ s1.next_table_id ∧ s.next_job_id ≤ s1.next_job_id) := by
  refine ⟨?_, ?_, ?_, runOps_next_mono⟩
  · intro names
    simpa [DatabaseMetadata.fresh] using addTables_fst names DatabaseMetadata.fresh
  · intro pre mid i name s1 s2 s3 h1 h2 h3
    have hWF1 := runOps_WF pre DatabaseMetadata.fresh s1 h1 fresh_WF
    rw [DatabaseMetadata.remove_table] at h2
    split at h2 <;> rename_i hc
    · injection h2 with h2
      have hske : i ∈ s1.table_names.map Prod.fst := by
        rw [assocContains] at hc
        exact (assocFind_isSome_iff _ _).mp hc
      have hib : i < s1.next_table_id := by
        obtain ⟨p, hp, hpe⟩ := List.mem_map.mp hske
        have := hWF1.1.2.1 p hp
        omega
      have h2next : s2.next_table_id = s1.next_table_id := by
        rw [← h2]
      have h3next := (runOps_next_mono mid s2 s3 h3).1
      simp only [DatabaseMetadata.add_table]
      omega
    · cases h2
  · intro pre mid i name s1 s2 s3 h1 h2 h3
    have hWF1 := runOps_WF pre DatabaseMetadata.fresh s1 h1 fresh_WF
    rw [DatabaseMetadata.remove_job] at h2
    split at h2 <;> rename_i hc
    · injection h2 with h2
      have hske : i ∈ s1.job_names.map Prod.fst := by
        rw [assocContains] at hc
        exact (assocFind_isSome_iff _ _).mp hc
      have hib : i < s1.next_job_id := by
        obtain ⟨p, hp, hpe⟩ := List.mem_map.mp hske
        have := hWF1.2.2.1 p hp
        omega
      have h2next : s2.next_job_id = s1.next_job_id := by
        rw [← h2]
      have h3next := (runOps_next_mono mid s2 s3 h3).2
      simp only [DatabaseMetadata.add_job]
      omega
    · cases h2

/-- Witness for catalog_id_allocation_monotone: two adds on a fresh catalog
return [0, 1]; after the trace add "videos", add "frames", remove 0,
add "x", a further add_table returns 3, not the removed 0. -/
theorem catalog_id_allocation_monotone_witness :
    (DatabaseMetadata.fresh.addTables ["videos", "frames"]).1
        = (List.range 2).map (fun (k : Nat) => (k : Int)) ∧
    (({ next_table_id := 3, table_names := [(1, "frames"), (2, "x")],
        next_job_id := 0, job_names := [] } : DatabaseMetadata).add_table "new").1
      ≠ (0 : Int) :=
  ⟨catalog_id_allocation_monotone.1 ["videos", "frames"],
   catalog_id_allocation_monotone.2.1
     [CatalogOp.addTable "videos", CatalogOp.addTable "frames"]
     [CatalogOp.addTable "x"] 0 "new"
     { next_table_id := 2, table_names := [(0, "videos"), (1, "frames")],
       next_job_id := 0, job_names := [] }
     { next_table_id := 2, table_names := [(1, "frames")],
       next_job_id := 0, job_names := [] }
     { next_table_id := 3, table_names := [(1, "frames"), (2, "x")],
       next_job_id := 0, job_names := [] }
     (by decide) (by decide) (by decide)⟩

theorem assocInsert_of_not_mem {κ α : Type} [DecidableEq κ]
    (m : List (κ × α)) (k : κ) (v : α) (h : k ∉ m.map Prod.fst) :
    assocInsert m k v = m ++ [(k, v)] := by
  simp [assocInsert, (assocFind_eq_none_iff m k).mpr h]

theorem rebuild_eq_of_nodup {κ α : Type} [DecidableEq κ] :
    ∀ (m acc : List (κ × α)),
      (∀ k ∈ m.map Prod.fst, k ∉ acc.map Prod.fst) →
      (m.map Prod.fst).Nodup →
      m.foldl (fun t p => assocInsert t p.1 p.2) acc = acc ++ m := by
  intro m
  induction m with
  | nil => intro acc _ _; simp
  | cons p rest ih =>
    intro acc hdisj hnd
    have hnd1 : p.1 ∉ rest.map Prod.fst ∧ (rest.map Prod.fst).Nodup :=
      List.nodup_cons.mp (by simpa using hnd)
    simp only [List.foldl_cons]
    rw [assocInsert_of_not_mem _ _ _ (hdisj p.1 (by simp))]
    rw [ih (acc ++ [p]) ?_ hnd1.2]
    · simp
    · intro k hk
      have h1 : k ∉ acc.map Prod.fst := hdisj k (by simp [hk])
      have h2 : k ≠ p.1 := by
        intro he
        exact hnd1.1 (he ▸ hk)
      simp [List.map_append, h1, h2]

theorem ofDescriptor_get_descriptor (s : DatabaseMetadata) (h : s.WF) :
    DatabaseMetadata.ofDescriptor s.get_descriptor = s := by
  obtain ⟨⟨_, _, htnd⟩, ⟨_, _, hjnd⟩⟩ := h
  have ht := rebuild_eq_of_nodup s.table_names [] (by simp) htnd
  have hj := rebuild_eq_of_nodup s.job_names [] (by simp) hjnd
  simp only [DatabaseMetadata.ofDescriptor, DatabaseMetadata.get_descriptor, ht, hj]
  simp

/-- C5: after any successful run of add/remove operations from a fresh
catalog, serializing with get_descriptor and reconstructing through the
descriptor constructor yields a catalog giving identical answers for
has_table, has_job, get_table_id, get_table_name, get_job_id and
get_job_name on every input, with the same next_table_id and next_job_id. -/
theorem catalog_roundtrip (ops : List CatalogOp) (s : DatabaseMetadata)
    (h : runOps DatabaseMetadata.fresh ops = some s) :
    (∀ n, (DatabaseMetadata.ofDescriptor s.get_descriptor).has_table_name n
        = s.has_table_name n) ∧
    (∀ i, (DatabaseMetadata.ofDescriptor s.get_descriptor).has_table_id i
        = s.has_table_id i) ∧
    (∀ n, (DatabaseMetadata.ofDescriptor s.get_descriptor).has_job_name n
        = s.has_job_name n) ∧
    (∀ i, (DatabaseMetadata.ofDescriptor s.get_descriptor).has_job_id i
        = s.has_job_id i) ∧
    (∀ n, (DatabaseMetadata.ofDescriptor s.get_descriptor).get_table_id n
        = s.get_table_id n) ∧
    (∀ i, (DatabaseMetadata.ofDescriptor s.get_descriptor).get_table_name i
        = s.get_table_name i) ∧
    (∀ n, (DatabaseMetadata.ofDescriptor s.get_descriptor).get_job_id n
        = s.get_job_id n) ∧
    (∀ i, (DatabaseMetadata.ofDescriptor s.get_descriptor).get_job_name i
        = s.get_job_name i) ∧
    (DatabaseMetadata.ofDescriptor s.get_descriptor).next_table_id
        = s.next_table_id ∧
    (DatabaseMetadata.ofDescriptor s.get_descriptor).next_job_id
        = s.next_job_id := by
  have hWF := runOps_WF ops DatabaseMetadata.fresh s h fresh_WF
  rw [ofDescriptor_get_descriptor s hWF]
  simp

/-- Witness for catalog_roundtrip: the trace add "videos", add "frames",
remove table 0, add job "j" reaches a concrete state on which the rebuilt
catalog agrees with the original. -/
theorem catalog_roundtrip_witness :
    (DatabaseMetadata.ofDescriptor
        ({ next_table_id := 2, table_names := [(1, "frames")],
           next_job_id := 1, job_names := [(0, "j")] }
          : DatabaseMetadata).get_descriptor).has_table_name "frames"
      = ({ next_table_id := 2, table_names := [(1, "frames")],
           next_job_id := 1, job_names := [(0, "j")] }
          : DatabaseMetadata).has_table_name "frames" ∧
    (DatabaseMetadata.ofDescriptor
        ({ next_table_id := 2, table_names := [(1, "frames")],
           next_job_id := 1, job_names := [(0, "j")] }
          : DatabaseMetadata).get_descriptor).next_table_id
      = ({ next_table_id := 2, table_names := [(1, "frames")],
           next_job_id := 1, job_names := [(0, "j")] }
          : DatabaseMetadata).next_table_id :=
  ⟨(catalog_roundtrip
      [CatalogOp.addTable "videos", CatalogOp.addTable "frames",
       CatalogOp.removeTable 0, CatalogOp.addJob "j"]
      { next_table_id := 2, table_names := [(1, "frames")],
        next_job_id := 1, job_names := [(0, "j")] }
      (by decide)).1 "frames",
   (catalog_roundtrip
      [CatalogOp.addTable "videos", CatalogOp.addTable "frames",
       CatalogOp.removeTable 0, CatalogOp.addJob "j"]
      { next_table_id := 2, table_names := [(1, "frames")],
        next_job_id := 1, job_names := [(0, "j")] }
      (by decide)).2.2.2.2.2.2.2.2.1⟩

/-- C7: on a well-formed catalog, get_table_id aborts (returns no value)
exactly when no table entry carries the requested name, and otherwise
returns an id whose entry carries that name; get_job_id symmetrically. -/
theorem get_id_found_or_fatal (s : DatabaseMetadata) (hWF : s.WF) (name : String) :
    ((∀ p ∈ s.table_names, p.2 ≠ name) → s.get_table_id name = none) ∧
    ((∃ p ∈ s.table_names, p.2 = name) →
      ∃ i : Int, s.get_table_id name = some i ∧ (i, name) ∈ s.table_names) ∧
    ((∀ p ∈ s.job_names, p.2 ≠ name) → s.get_job_id name = none) ∧
    ((∃ p ∈ s.job_names, p.2 = name) →
      ∃ i : Int, s.get_job_id name = some i ∧ (i, name) ∈ s.job_names) := by
  obtain ⟨⟨_, htb, _⟩, ⟨_, hjb, _⟩⟩ := hWF
  refine ⟨?_, ?_, ?_, ?_⟩
  · intro habs
    have hnone : s.table_names.find? (fun p => p.2 == name) = none := by
      rw [List.find?_eq_none]
      intro p hp
      simpa using habs p hp
    simp [DatabaseMetadata.get_table_id, hnone]
  · rintro ⟨q, hq, hqe⟩
    have hsome : (s.table_names.find? (fun p => p.2 == name)).isSome := by
      rw [List.find?_isSome]
      exact ⟨q, hq, by simpa using hqe⟩
    obtain ⟨f, hf⟩ := Option.isSome_iff_exists.mp hsome
    have hfm := List.mem_of_find?_eq_some hf
    have hfe : f.2 = name := by simpa using List.find?_some hf
    have hfge := (htb f hfm).1
    have hfneg : ¬ f.1 = -1 := by omega
    refine ⟨f.1, ?_, ?_⟩
    · simp [DatabaseMetadata.get_table_id, hf, hfneg]
    · rw [← hfe, Prod.mk.eta]
      exact hfm
  · intro habs
    have hnone : s.job_names.find? (fun p => p.2 == name) = none := by
      rw [List.find?_eq_none]
      intro p hp
      simpa using habs p hp
    simp [DatabaseMetadata.get_job_id, hnone]
  · rintro ⟨q, hq, hqe⟩
    have hsome : (s.job_names.find? (fun p => p.2 == name)).isSome := by
      rw [List.find?_isSome]
      exact ⟨q, hq, by simpa using hqe⟩
    obtain ⟨f, hf⟩ := Option.isSome_iff_exists.mp hsome
    have hfm := List.mem_of_find?_eq_some hf
    have hfe : f.2 = name := by simpa using List.find?_some hf
    have hfge := (hjb f hfm).1
    have hfneg : ¬ f.1 = -1 := by omega
    refine ⟨f.1, ?_, ?_⟩
    · simp [DatabaseMetadata.get_job_id, hf, hfneg]
    · rw [← hfe, Prod.mk.eta]
      exact hfm

/-- Witness for get_id_found_or_fatal: a catalog holding only table
(0, "videos") aborts get_table_id on the absent name "missing". -/
theorem get_id_found_or_fatal_witness :
    ({ next_table_id := 1, table_names := [(0, "videos")],
       next_job_id := 0, job_names := [] }
      : DatabaseMetadata).get_table_id "missing" = none :=
  (get_id_found_or_fatal
    { next_table_id := 1, table_names := [(0, "videos")],
      next_job_id := 0, job_names := [] }
    (by decide) "missing").1 (by decide)

/-! ## Tables: `TableMetadata` (db.cpp lines 330-382) -/

/-- Column type enum of the descriptor schema. -/
inductive ColumnType where
  | INT
  | VIDEO
  | OTHER
  deriving DecidableEq, Repr

/-- One column of a table or job: id, name, type. -/
structure Column where
  id : Int
  name : String
  type : ColumnType
  deriving DecidableEq, Repr

/-- Serialized table payload. -/
structure TableDescriptor where
  id : Int
  name : String
  num_rows : Int
  rows_per_item : Int
  columns : List Column
  deriving DecidableEq, Repr

/-- In-memory `TableMetadata`: the wrapped descriptor plus the column list
copied at construction. -/
structure TableMetadata where
  descriptor : TableDescriptor
  columns : List Column
  deriving DecidableEq, Repr

/-- The descriptor constructor `TableMetadata(const TableDescriptor&)`:
stores the payload and copies its columns into `columns_`. -/
def TableMetadata.ofDescriptor (d : TableDescriptor) : TableMetadata :=
  { descriptor := d, columns := d.columns }

def TableMetadata.id (t : TableMetadata) : Int := t.descriptor.id

def TableMetadata.name (t : TableMetadata) : String := t.descriptor.name

def TableMetadata.num_rows (t : TableMetadata) : Int := t.descriptor.num_rows

def TableMetadata.rows_per_item (t : TableMetadata) : Int :=
  t.descriptor.rows_per_item

/-- `column_name(id)`: scan the descriptor columns for the first column
with the given id; `LOG(FATAL)` (modelled as `none`) when absent. -/
def TableMetadata.column_name (t : TableMetadata) (column_id : Int) :
    Option String :=
  (t.descriptor.columns.find? (fun c => c.id == column_id)).map Column.name

/-- `column_id(name)`: scan for the first column with the given name;
fatal when absent. -/
def TableMetadata.column_id (t : TableMetadata) (column_name : String) :
    Option Int :=
  (t.descriptor.columns.find? (fun c => c.name == column_name)).map Column.id

/-- `column_type(id)`: scan for the first column with the given id; fatal
when absent. -/
def TableMetadata.column_type (t : TableMetadata) (column_id : Int) :
    Option ColumnType :=
  (t.descriptor.columns.find? (fun c => c.id == column_id)).map Column.type

/-! ## The publish sequence: `write_new_table` (db.cpp lines 388-400) -/

/-- One backend write of a serialized descriptor. -/
inductive WriteEvent where
  | tableWrite : TableDescriptor → WriteEvent
  | catalogWrite : DatabaseDescriptor → WriteEvent
  deriving DecidableEq, Repr

/-- Modelled from the spec: the storage Backend of spec section 6, reduced
to the write half used by `write_new_table`. `log` records completed
writes in order; the two flags say whether the table-descriptor flush and
the catalog-descriptor flush succeed. -/
structure Backend where
  log : List WriteEvent
  tableWriteOk : Bool
  catalogWriteOk : Bool
  deriving DecidableEq, Repr

/-- Modelled from the spec: `write_table_metadata` (declared in db.h, body
not under src/) serializes the table descriptor and writes it at its
canonical path; a flush failure is fatal for the operation (`none`). -/
def write_table_metadata (b : Backend) (t : TableMetadata) : Option Backend :=
  if b.tableWriteOk then
    some { b with log := b.log ++ [WriteEvent.tableWrite t.descriptor] }
  else none

/-- Modelled from the spec: `write_database_metadata` serializes the
catalog descriptor obtained from `get_descriptor()` and writes it at the
catalog path; a flush failure is fatal for the operation (`none`). -/
def write_database_metadata (b : Backend) (m : DatabaseMetadata) :
    Option Backend :=
  if b.catalogWriteOk then
    some { b with log := b.log ++ [WriteEvent.catalogWrite m.get_descriptor] }
  else none

/-- `write_new_table`: allocate a table id from the catalog, stamp it on
the table payload, persist the table descriptor, then persist the catalog
descriptor. Returns the backend after the completed writes (`none` when a
flush failed and the operation aborted) together with the mutated catalog
and table. -/
def write_new_table (b : Backend) (meta : DatabaseMetadata)
    (table : TableMetadata) :
    Option Backend × DatabaseMetadata × TableMetadata :=
  let r := meta.add_table table.name
  let table1 : TableMetadata :=
    { table with descriptor := { table.descriptor with id := r.1 } }
  match write_table_metadata b table1 with
  | none => (none, r.2, table1)
  | some b1 =>
    match write_database_metadata b1 r.2 with
    | none => (none, r.2, table1)
    | some b2 => (some b2, r.2, table1)

/-- C2: when both flushes succeed, write_new_table first allocates
table_id = next_table_id via add_table, stamps it on the table payload,
then appends the table-descriptor write and only after it the
catalog-descriptor write to the backend log (leaf before root); the
catalog descriptor written already lists the new id under the table name. -/
theorem write_new_table_ordered (b : Backend) (meta : DatabaseMetadata)
    (table : TableMetadata)
    (h1 : b.tableWriteOk = true) (h2 : b.catalogWriteOk = true) :
    write_new_table b meta table =
      (some { b with log := b.log ++
          [WriteEvent.tableWrite { table.descriptor with id := meta.next_table_id },
           WriteEvent.catalogWrite ((meta.add_table table.name).2).get_descriptor] },
       (meta.add_table table.name).2,
       { table with
         descriptor := { table.descriptor with id := meta.next_table_id } }) ∧
    (meta.add_table table.name).1 = meta.next_table_id ∧
    assocFind ((meta.add_table table.name).2).get_descriptor.tables
        meta.next_table_id = some table.name := by
  refine ⟨?_, rfl, ?_⟩
  · simp [write_new_table, write_table_metadata, write_database_metadata,
      h1, h2, DatabaseMetadata.add_table]
  · simp [DatabaseMetadata.get_descriptor, DatabaseMetadata.add_table,
      assocFind_assocSet_self]

/-- A backend whose two flushes both succeed, starting from an empty log. -/
def backendW : Backend := { log := [], tableWriteOk := true, catalogWriteOk := true }

/-- An unpersisted table payload, not yet stamped with a catalog id. -/
def tableW : TableMetadata :=
  TableMetadata.ofDescriptor
    { id := 0, name := "videos", num_rows := 0, rows_per_item := 0, columns := [] }

/-- Witness for write_new_table_ordered on a fresh catalog and an empty
backend log. -/
theorem write_new_table_ordered_witness :
    write_new_table backendW DatabaseMetadata.fresh tableW =
      (some { backendW with log := backendW.log ++
          [WriteEvent.tableWrite
            { tableW.descriptor with id := DatabaseMetadata.fresh.next_table_id },
           WriteEvent.catalogWrite
            ((DatabaseMetadata.fresh.add_table tableW.name).2).get_descriptor] },
       (DatabaseMetadata.fresh.add_table tableW.name).2,
       { tableW with
         descriptor :=
          { tableW.descriptor with id := DatabaseMetadata.fresh.next_table_id } }) ∧
    (DatabaseMetadata.fresh.add_table tableW.name).1
        = DatabaseMetadata.fresh.next_table_id ∧
    assocFind ((DatabaseMetadata.fresh.add_table tableW.name).2).get_descriptor.tables
        DatabaseMetadata.fresh.next_table_id = some tableW.name :=
  write_new_table_ordered backendW DatabaseMetadata.fresh tableW rfl rfl

/-- C9: the catalog mutation of write_new_table is not rolled back: for
every backend, including those on which either flush fails, the resulting
catalog has next_table_id advanced by one, the allocated id (the old
next_table_id) is stamped on the table and registered in the catalog, and
a retry add_table on that catalog returns a different id. -/
theorem write_new_table_id_consumed (b : Backend) (meta : DatabaseMetadata)
    (table : TableMetadata) (retry_name : String) :
    ((write_new_table b meta table).2.1).next_table_id = meta.next_table_id + 1 ∧
    ((write_new_table b meta table).2.2).id = meta.next_table_id ∧
    ((write_new_table b meta table).2.1).has_table_id meta.next_table_id = true ∧
    (((write_new_table b meta table).2.1).add_table retry_name).1
        ≠ meta.next_table_id := by
  cases hbt : b.tableWriteOk <;> cases hbc : b.catalogWriteOk <;>
    simp [write_new_table, write_table_metadata, write_database_metadata,
      hbt, hbc, DatabaseMetadata.add_table, DatabaseMetadata.has_table_id,
      assocContains, assocFind_assocSet_self, TableMetadata.id]

/-! ## Jobs: `JobMetadata` (db.cpp lines 249-326) -/

/-- A sample: a reference to a run of rows contributing to one table. -/
structure TableSample where
  table_id : Int
  rows : List Int
  deriving DecidableEq, Repr

/-- A task: one output table and its ordered samples. -/
structure Task where
  output_table_id : Int
  samples : List TableSample
  deriving DecidableEq, Repr

/-- Serialized job payload. -/
structure JobDescriptor where
  id : Int
  name : String
  io_item_size : Int
  work_item_size : Int
  num_nodes : Int
  columns : List Column
  tasks : List Task
  deriving DecidableEq, Repr

/-- In-memory `JobMetadata`: wrapped descriptor, copied columns, the
name-to-id column index, one table id pushed per task, and the mutable
rows_in_table_ cache. -/
structure JobMetadata where
  descriptor : JobDescriptor
  columns : List Column
  column_ids : List (String × Int)
  table_ids : List Int
  rows_in_table_cache : List (Int × Int)
  deriving DecidableEq, Repr

/-- The descriptor constructor (db.cpp 250-258): copies the columns,
inserts (name, id) into the column index for each column, and pushes the
output_table_id of every task onto table_ids_, one entry per task. -/
def JobMetadata.ofDescriptor (d : JobDescriptor) : JobMetadata :=
  { descriptor := d,
    columns := d.columns,
    column_ids := d.columns.foldl (fun m c => assocInsert m c.name c.id) [],
    table_ids := d.tasks.map Task.output_table_id,
    rows_in_table_cache := [] }

/-- `JobMetadata::has_table`: linear scan of table_ids_. -/
def JobMetadata.has_table (j : JobMetadata) (table_id : Int) : Bool :=
  j.table_ids.any (fun i => i == table_id)

/-- `JobMetadata::column_id` (db.cpp 284-286): the body evaluates
`column_ids_.at(column_name)` and discards the result; the function has
no return statement, so no looked-up value is returned to the caller (and
an absent name makes the lookup itself fail). -/
def JobMetadata.column_id (j : JobMetadata) (column_name : String) :
    Option Int :=
  match assocFind j.column_ids column_name with
  | none => none
  | some _ => none

/-- The cache-miss loop of rows_in_table (db.cpp 305-310): for every task,
assert it has a first sample, overwrite the local rows variable with the
row count of that first sample, then `std::map::insert` (table_id, rows)
into the cache — which keeps the entry made for the first task. -/
def rowsScan (table_id : Int) :
    List Task → Int → List (Int × Int) → Option (Int × List (Int × Int))
  | [], rows, cache => some (rows, cache)
  | task :: rest, _, cache =>
    match task.samples with
    | [] => none
    | sample :: _ =>
      rowsScan table_id rest (sample.rows.length : Int)
        (assocInsert cache table_id (sample.rows.length : Int))

/-- `rows_in_table` (db.cpp 301-316): start from rows = -1; on a cache hit
take the cached value, on a miss run the scan loop over all tasks; then
assert rows is not -1. Returns the value together with the JobMetadata
carrying the updated mutable cache; `none` models a failed assert. -/
def JobMetadata.rows_in_table (j : JobMetadata) (table_id : Int) :
    Option (Int × JobMetadata) :=
  match assocFind j.rows_in_table_cache table_id with
  | some r => if r = -1 then none else some (r, j)
  | none =>
    match rowsScan table_id j.descriptor.tasks (-1) j.rows_in_table_cache with
    | none => none
    | some (rows, cache) =>
      if rows = -1 then none
      else some (rows, { j with rows_in_table_cache := cache })

/-! ## Item descriptors: `VideoMetadata` (db.cpp lines 186-216) -/

/-- Serialized per-item video payload. -/
structure VideoDescriptor where
  table_id : Int
  column_id : Int
  item_id : Int
  frames : Int
  width : Int
  height : Int
  keyframe_positions : List Int
  keyframe_byte_offsets : List Int
  deriving DecidableEq, Repr

/-- In-memory `VideoMetadata`: the wrapped payload, stored as is. -/
structure VideoMetadata where
  descriptor : VideoDescriptor
  deriving DecidableEq, Repr

/-- The descriptor constructor `VideoMetadata(const VideoDescriptor&)`
(db.cpp 188-189): stores the payload and performs no validation. -/
def VideoMetadata.ofDescriptor (d : VideoDescriptor) : VideoMetadata :=
  { descriptor := d }

/-- Accessor returning the stored keyframe position sequence. -/
def VideoMetadata.keyframe_positions (v : VideoMetadata) : List Int :=
  v.descriptor.keyframe_positions

/-- Accessor returning the stored keyframe byte-offset sequence. -/
def VideoMetadata.keyframe_byte_offsets (v : VideoMetadata) : List Int :=
  v.descriptor.keyframe_byte_offsets

/-! ## Claims C3, C4, C6, C8, C10 -/

/-- Job with two tasks whose first samples hold 1 and 2 rows. -/
def twoTasksDesc : JobDescriptor :=
  { id := 0, name := "job", io_item_size := 0, work_item_size := 0,
    num_nodes := 0, columns := [],
    tasks :=
      [ { output_table_id := 5, samples := [{ table_id := 5, rows := [0] }] },
        { output_table_id := 6, samples := [{ table_id := 6, rows := [0, 0] }] } ] }

/-- C3 (code bug): on twoTasksDesc the first call to rows_in_table 5
returns 2 (the first-sample row count of the last task) while the cache
receives 1 (that of the first task); the second call answers from the
cache with 1, so two successive calls disagree. -/
theorem rows_in_table_incoherent :
    (((JobMetadata.ofDescriptor twoTasksDesc).rows_in_table 5).map Prod.fst
        = some 2) ∧
    (((JobMetadata.ofDescriptor twoTasksDesc).rows_in_table 5).bind
        (fun r => (r.2.rows_in_table 5).map Prod.fst) = some 1) := by
  decide

/-- Payload whose parallel keyframe arrays have lengths 3 and 2. -/
def badVideoDesc : VideoDescriptor :=
  { table_id := 0, column_id := 0, item_id := 0, frames := 90, width := 0,
    height := 0, keyframe_positions := [0, 30, 60],
    keyframe_byte_offsets := [0, 15000] }

/-- The equal-length payload of spec scenario 4. -/
def goodVideoDesc : VideoDescriptor :=
  { table_id := 0, column_id := 0, item_id := 0, frames := 90, width := 0,
    height := 0, keyframe_positions := [0, 30, 60],
    keyframe_byte_offsets := [0, 15000, 31000] }

/-- C4 counterexample: loading the payload with keyframe arrays of lengths
3 and 2 is not rejected — construction succeeds and the view exposes the
mismatched sequences. -/
theorem video_load_no_validation_cex :
    (VideoMetadata.ofDescriptor badVideoDesc).keyframe_positions.length ≠
    (VideoMetadata.ofDescriptor badVideoDesc).keyframe_byte_offsets.length := by
  decide

/-- C4 amended: loading performs no validation — for every payload the
construction succeeds and the accessors return the stored sequences
unchanged; the equal-length scenario payload loads with accessors of
equal length 3. -/
theorem video_load_total :
    (∀ d : VideoDescriptor,
      (VideoMetadata.ofDescriptor d).keyframe_positions
          = d.keyframe_positions ∧
      (VideoMetadata.ofDescriptor d).keyframe_byte_offsets
          = d.keyframe_byte_offsets) ∧
    ((VideoMetadata.ofDescriptor goodVideoDesc).keyframe_positions.length = 3 ∧
     (VideoMetadata.ofDescriptor goodVideoDesc).keyframe_byte_offsets.length = 3) :=
  ⟨fun _ => ⟨rfl, rfl⟩, by decide⟩

/-- Job with two tasks both targeting output table 5. -/
def dupTasksDesc : JobDescriptor :=
  { id := 0, name := "job", io_item_size := 0, work_item_size := 0,
    num_nodes := 0, columns := [],
    tasks :=
      [ { output_table_id := 5, samples := [{ table_id := 5, rows := [0] }] },
        { output_table_id := 5, samples := [{ table_id := 5, rows := [0] }] } ] }

/-- C6 counterexample: with two tasks both targeting table 5, table_ids
lists 5 twice, so it does not contain each distinct output table id
exactly once. -/
theorem table_ids_duplicates_cex :
    ¬ (((JobMetadata.ofDescriptor dupTasksDesc).table_ids.count 5) = 1) := by
  decide

/-- The job of spec scenario 3: two tasks, each with one sample of 100
rows, targeting tables 5 and 6. -/
def scenario3Desc : JobDescriptor :=
  { id := 0, name := "job", io_item_size := 0, work_item_size := 0,
    num_nodes := 0, columns := [],
    tasks :=
      [ { output_table_id := 5,
          samples := [{ table_id := 5, rows := List.replicate 100 0 }] },
        { output_table_id := 6,
          samples := [{ table_id := 6, rows := List.replicate 100 0 }] } ] }

/-- C6 amended: table_ids lists the output_table_id of every task in task
order, one entry per task (duplicates are kept when several tasks target
one table); for the scenario 3 job targeting tables 5 and 6 it equals
[5, 6]. -/
theorem table_ids_per_task :
    (∀ d : JobDescriptor,
      (JobMetadata.ofDescriptor d).table_ids = d.tasks.map Task.output_table_id) ∧
    (JobMetadata.ofDescriptor scenario3Desc).table_ids = [5, 6] :=
  ⟨fun _ => rfl, by decide⟩

/-- Table with two columns sharing the name "x". -/
def dupNameColsDesc : TableDescriptor :=
  { id := 0, name := "t", num_rows := 0, rows_per_item := 0,
    columns := [ { id := 0, name := "x", type := ColumnType.INT },
                 { id := 1, name := "x", type := ColumnType.VIDEO } ] }

/-- C8 counterexample: the column list of dupNameColsDesc contains the
column {1, "x", VIDEO}, yet column_id "x" returns 0, the id of the
earlier column with the same name, so the universally stated claim fails. -/
theorem column_lookup_cex :
    ¬ (∀ (d : TableDescriptor), ∀ c ∈ d.columns,
        (TableMetadata.ofDescriptor d).column_id c.name = some c.id ∧
        (TableMetadata.ofDescriptor d).column_type c.id = some c.type ∧
        (TableMetadata.ofDescriptor d).column_name c.id = some c.name) := by
  intro h
  have hc := h dupNameColsDesc
    { id := 1, name := "x", type := ColumnType.VIDEO } (by decide)
  exact absurd hc.1 (by decide)

/-- The first column matching a key is the unique matching column when the
mapped keys are pairwise distinct. -/
theorem find?_key_nodup {κ : Type} [BEq κ] [LawfulBEq κ] (key : Column → κ) :
    ∀ (cols : List Column) (c : Column), c ∈ cols → (cols.map key).Nodup →
      cols.find? (fun c0 => key c0 == key c) = some c := by
  intro cols
  induction cols with
  | nil => intro c hc _; cases hc
  | cons d tl ih =>
    intro c hc hnd
    have hnd1 : key d ∉ tl.map key ∧ (tl.map key).Nodup :=
      List.nodup_cons.mp (by simpa using hnd)
    rcases List.mem_cons.mp hc with he | htl
    · subst he
      simp [List.find?]
    · have hne : key d ≠ key c := by
        intro he
        apply hnd1.1
        rw [he]
        exact List.mem_map.mpr ⟨c, htl, rfl⟩
      rw [List.find?_cons_of_neg _ (by simp [hne])]
      exact ih c htl hnd1.2

/-- The table of spec scenario 2. -/
def scenario2Desc : TableDescriptor :=
  { id := 0, name := "t", num_rows := 0, rows_per_item := 0,
    columns := [ { id := 0, name := "index", type := ColumnType.INT },
                 { id := 1, name := "frame", type := ColumnType.VIDEO } ] }

/-- C8 amended: on a column list with pairwise distinct names and ids,
every contained column {i, n, t} satisfies column_id(n) = i,
column_type(i) = t and column_name(i) = n (in general the accessors
return the attribute of the first matching column); an absent name or id
is fatal; scenario 2 behaves as specified. -/
theorem column_lookup_first :
    (∀ d : TableDescriptor,
      (d.columns.map Column.name).Nodup → (d.columns.map Column.id).Nodup →
      ∀ c ∈ d.columns,
        (TableMetadata.ofDescriptor d).column_id c.name = some c.id ∧
        (TableMetadata.ofDescriptor d).column_type c.id = some c.type ∧
        (TableMetadata.ofDescriptor d).column_name c.id = some c.name) ∧
    (∀ d : TableDescriptor, ∀ n : String,
      (∀ c ∈ d.columns, c.name ≠ n) →
      (TableMetadata.ofDescriptor d).column_id n = none) ∧
    (∀ d : TableDescriptor, ∀ i : Int,
      (∀ c ∈ d.columns, c.id ≠ i) →
      (TableMetadata.ofDescriptor d).column_name i = none ∧
      (TableMetadata.ofDescriptor d).column_type i = none) ∧
    ((TableMetadata.ofDescriptor scenario2Desc).column_id "frame" = some 1 ∧
     (TableMetadata.ofDescriptor scenario2Desc).column_type 1
        = some ColumnType.VIDEO ∧
     (TableMetadata.ofDescriptor scenario2Desc).column_name 99 = none) := by
  refine ⟨?_, ?_, ?_, by decide⟩
  · intro d hn hi c hc
    have h1 := find?_key_nodup Column.name d.columns c hc hn
    have h2 := find?_key_nodup Column.id d.columns c hc hi
    exact ⟨by simp [TableMetadata.ofDescriptor, TableMetadata.column_id, h1],
           by simp [TableMetadata.ofDescriptor, TableMetadata.column_type, h2],
           by simp [TableMetadata.ofDescriptor, TableMetadata.column_name, h2]⟩
  · intro d n habs
    have hnone : d.columns.find? (fun c => c.name == n) = none := by
      rw [List.find?_eq_none]
      intro c hcm
      simpa using habs c hcm
    simp [TableMetadata.ofDescriptor, TableMetadata.column_id, hnone]
  · intro d i habs
    have hnone : d.columns.find? (fun c => c.id == i) = none := by
      rw [List.find?_eq_none]
      intro c hcm
      simpa using habs c hcm
    exact ⟨by simp [TableMetadata.ofDescriptor, TableMetadata.column_name, hnone],
           by simp [TableMetadata.ofDescriptor, TableMetadata.column_type, hnone]⟩

/-- Witness for column_lookup_first at scenario 2 and its column
{1, "frame", VIDEO}. -/
theorem column_lookup_first_witness :
    (TableMetadata.ofDescriptor scenario2Desc).column_id "frame" = some 1 ∧
    (TableMetadata.ofDescriptor scenario2Desc).column_type 1
        = some ColumnType.VIDEO ∧
    (TableMetadata.ofDescriptor scenario2Desc).column_name 1 = some "frame" :=
  column_lookup_first.1 scenario2Desc (by decide) (by decide)
    { id := 1, name := "frame", type := ColumnType.VIDEO } (by decide)

/-- Job with one column (1, "frame"). -/
def jobColsDesc : JobDescriptor :=
  { id := 0, name := "job", io_item_size := 0, work_item_size := 0,
    num_nodes := 0,
    columns := [ { id := 1, name := "frame", type := ColumnType.VIDEO } ],
    tasks := [] }

/-- C10 (code bug): the construction-time column index maps "frame" to 1,
yet column_id returns no value, because the source performs the lookup
and then falls off the end of the function without a return statement. -/
theorem job_column_id_missing_return :
    assocFind (JobMetadata.ofDescriptor jobColsDesc).column_ids "frame"
        = some 1 ∧
    (JobMetadata.ofDescriptor jobColsDesc).column_id "frame" = none := by
  decide

end Scanner
